import Mathlib

/-!
Verification of the tue_carrot_planner local planner core
(src/src/carrot_planner.cpp) against its natural-language specification.

The C++ source is shallowly embedded here:
* laser-scan handling (`isClearLine`, lines 120-180) over `ℚ` readings with
  C++ `double → int` casts modelled by truncation toward zero (`truncQ`);
  the transcendental constant `atan2(RADIUS_ROBOT, DISTANCE_VIRTUAL_WALL)`
  is passed in as the parameter `dth`;
* the rotational reference generator (`determineReference`, lines 254-349)
  as a polymorphic function over any linear ordered field, so that it can
  be evaluated on `ℚ` and used inside the `ℝ`-valued control-loop model;
* the translational pipeline (`determineDesiredVelocity`,
  `computeVelocityCommand`, `setGoal`, lines 53-251) over `ℝ` with
  `tf::Vector3` as `Vec3` and `geometry_msgs::Twist` as `Twist`.

An out-of-bounds access into the scan array (C++ undefined behaviour) is
modelled by `Option`: `isClearLine` returns `none` when the loop indexes the
readings vector outside `[0, numReadings)`.
-/

/-- Truncation toward zero, the semantics of the C++ conversion
`(int)(double)` used at lines 132 and 155 of carrot_planner.cpp. -/
def truncQ (q : ℚ) : ℤ :=
  if 0 ≤ q then ⌊q⌋ else ⌈q⌉

/-- Model of `sensor_msgs::LaserScan` as consumed by `isClearLine`: the
readings, the angular increment and the minimum angle (the latter is only
used in logging by the source). -/
structure LaserScan where
  ranges : List ℚ
  angle_increment : ℚ
  angle_min : ℚ

/-- Source line 132: `int num_incr = goal_angle_/laser_scan_.angle_increment`. -/
def numIncr (goal_angle angle_increment : ℚ) : ℤ :=
  truncQ (goal_angle / angle_increment)

/-- Source line 133: `int index_beam_obst = num_readings/2 + num_incr`
(`num_readings/2` is C++ integer division of a non-negative size). -/
def indexBeamObst (num_readings : ℕ) (goal_angle angle_increment : ℚ) : ℤ :=
  (num_readings / 2 : ℕ) + numIncr goal_angle angle_increment

/-- Source line 155: `int d_step = dth/laser_scan_.angle_increment`, where
`dth = atan2(RADIUS_ROBOT, DISTANCE_VIRTUAL_WALL)` is passed in here as the
parameter `dth`. -/
def dStep (dth angle_increment : ℚ) : ℤ :=
  truncQ (dth / angle_increment)

/-- Access `laser_scan_.ranges[j]` (line 163): `some` reading inside the
vector, `none` for an index outside `[0, ranges.length)` (in C++ this is an
out-of-bounds `std::vector` access, undefined behaviour). -/
def readRange (ranges : List ℚ) (j : ℤ) : Option ℚ :=
  if 0 ≤ j then ranges[j.toNat]? else none

/-- The loop of lines 161-177, one `fuel` unit per iteration: while the
counter `j` runs, a body guarded by `j < num_readings` reads `ranges[j]`
(note: there is no lower-bound guard in the source) and returns `false` on a
reading strictly between `0.01` and the virtual-wall distance `wall`;
`none` records an out-of-bounds read. -/
def clearLineLoop (ranges : List ℚ) (wall : ℚ) : ℕ → ℤ → Option Bool
  | 0, _ => some true
  | fuel + 1, j =>
    if j < (ranges.length : ℤ) then
      match readRange ranges j with
      | none => none
      | some r =>
        if 1 / 100 < r ∧ r < wall then some false
        else clearLineLoop ranges wall fuel (j + 1)
    else clearLineLoop ranges wall fuel (j + 1)

/-- Embedding of `CarrotPlanner::isClearLine` (lines 120-180).  The loop at
line 161 is `for (int j = std::min(index_beam_obst - d_step, 0);
j < index_beam_obst + d_step; ++j)` — note `std::min`, so the loop start is
never above `0`.  The fuel `(stop - start).toNat` is exactly the number of
iterations of that counted loop. -/
def isClearLine (laser_data_available : Bool) (scan : LaserScan)
    (goal_angle dth wall : ℚ) : Option Bool :=
  if laser_data_available = false then some false
  else
    let num_readings := scan.ranges.length
    let iGoal := indexBeamObst num_readings goal_angle scan.angle_increment
    let d := dStep dth scan.angle_increment
    let start := min (iGoal - d) 0
    let stop := iGoal + d
    clearLineLoop scan.ranges wall (stop - start).toNat start

/-- Written from the specification's words for comparison with
`isClearLine` (claim C1): with an accepted scan, the path counts as clear
exactly when no reading in the index window
`[indexGoal - halfWidth, indexGoal + halfWidth)` clamped to
`[0, numReadings)` lies strictly between `0.01` and the standoff `wall`. -/
def specIsPathClear (laser_data_available : Bool) (scan : LaserScan)
    (goal_angle dth wall : ℚ) : Prop :=
  laser_data_available = true ∧
    ∀ j : ℤ,
      max (indexBeamObst scan.ranges.length goal_angle scan.angle_increment
            - dStep dth scan.angle_increment) 0 ≤ j →
      j < min (indexBeamObst scan.ranges.length goal_angle scan.angle_increment
            + dStep dth scan.angle_increment) (scan.ranges.length : ℤ) →
      ∀ r : ℚ, readRange scan.ranges j = some r → ¬(1 / 100 < r ∧ r < wall)

/-- Modelled from the spec: the `sign` helper used by `determineReference`
is declared in the repository's header, which is not under src/.  Two spec
constraints fix it: step 6 of section 4.3 makes the final velocity
`sign(error) × |v|` (with `sign = 0` only in the Still branch, where
`|v| = 0` already forces a zero output), and the section's edge case — a
zero error with nonzero previous velocity still drives a full deceleration
ramp rather than an instant stop — requires the factor not to vanish at a
zero error.  So the sign is nonzero at `0`: `1` for non-negative arguments
and `-1` for negative ones. -/
def sgn {α : Type} [LinearOrderedField α] (x : α) : α :=
  if 0 ≤ x then 1 else -1

/-- Embedding of `CarrotPlanner::determineReference` (lines 254-349), the
rotational reference generator, polymorphic in the scalar field so that it
can be evaluated exactly on `ℚ` and used on `ℝ` in the control loop.  The
branch structure (still / dec / con / acc) follows the source; in the still
branch the source zeroes `error_x` before taking `dir = sign(error_x)`, so
the final `dir * vel_mag` there is `sgn 0 * |vel|` — and `|vel| = 0` in
that branch, so the output is `0` whatever `sgn 0` is. -/
def determineReference {α : Type} [LinearOrderedField α]
    (error_x vel max_vel max_acc dt : α) : α :=
  let EPS := 1 / 2 * max_acc * dt
  let vel_mag := |vel|
  let delta_t1 := vel_mag / max_acc
  let dec_dist := 1 / 2 * max_acc * delta_t1 * delta_t1
  let delta_x := |error_x|
  let sign_x := sgn vel
  if vel_mag ≠ 0 ∨ delta_x > EPS then
    let dir := sgn error_x
    let vel_mag2 :=
      if |dec_dist| ≥ |delta_x| ∨ (sign_x * error_x < 0 ∧ vel_mag ≠ 0) then
        let v1 := max (vel_mag - max_acc * dt) 0
        if v1 < 1 / 2 * max_acc * dt then 0 else v1
      else if |dec_dist| < |delta_x| ∧ vel_mag ≥ max_vel then vel_mag
      else min (vel_mag + max_acc * dt) max_vel
    dir * vel_mag2
  else
    sgn (0 : α) * vel_mag

/-- Model of `tf::Vector3` with real components. -/
structure Vec3 where
  x : ℝ
  y : ℝ
  z : ℝ

instance : Zero Vec3 := ⟨⟨0, 0, 0⟩⟩

instance : Add Vec3 := ⟨fun a b => ⟨a.x + b.x, a.y + b.y, a.z + b.z⟩⟩

instance : Sub Vec3 := ⟨fun a b => ⟨a.x - b.x, a.y - b.y, a.z - b.z⟩⟩

instance : Neg Vec3 := ⟨fun a => ⟨-a.x, -a.y, -a.z⟩⟩

instance : SMul ℝ Vec3 := ⟨fun k v => ⟨k * v.x, k * v.y, k * v.z⟩⟩

/-- Euclidean norm, `tf::Vector3::length()`. -/
noncomputable def Vec3.length (v : Vec3) : ℝ :=
  Real.sqrt (v.x ^ 2 + v.y ^ 2 + v.z ^ 2)

/-- Componentwise division by the norm, `tf::Vector3::normalized()`. -/
noncomputable def Vec3.normalized (v : Vec3) : Vec3 :=
  ⟨v.x / v.length, v.y / v.length, v.z / v.length⟩

/-- Model of `geometry_msgs::Twist`. -/
structure Twist where
  linear : Vec3
  angular : Vec3

/-- The desired-speed computation of lines 214-220: `0` on zero error and
the braking-curve value `min(MAX_VEL, GAIN*sqrt(2*|e|*MAX_ACC))` otherwise. -/
noncomputable def vDesiredNorm (MAX_VEL GAIN MAX_ACC error_lin_norm : ℝ) : ℝ :=
  if error_lin_norm > 0 then
    min MAX_VEL (GAIN * Real.sqrt (2 * error_lin_norm * MAX_ACC))
  else 0

/-- Embedding of `CarrotPlanner::determineDesiredVelocity` (lines 198-251).
The translational branch keeps the source's three cases: acceleration
clamp, the near-goal branch (which multiplies by `1.0`, line 241) and the
pass-through; the rotational part delegates to `determineReference` with
zero `x`/`y` rates. -/
noncomputable def determineDesiredVelocity
    (MAX_VEL MAX_ACC MAX_VEL_THETA MAX_ACC_THETA GAIN : ℝ)
    (goal : Vec3) (goal_angle : ℝ) (last_cmd_vel : Twist) (dt : ℝ) : Twist :=
  let error_lin := goal
  let error_ang := goal_angle
  let current_vel_trans := last_cmd_vel.linear
  let error_lin_norm := error_lin.length
  let v_desired_norm := vDesiredNorm MAX_VEL GAIN MAX_ACC error_lin_norm
  let vel_desired :=
    v_desired_norm • (if error_lin.length > 0 then error_lin.normalized else (0 : Vec3))
  let vel_diff := vel_desired - current_vel_trans
  let acc_desired := vel_diff.length / dt
  let lin :=
    if acc_desired > MAX_ACC then
      current_vel_trans + (MAX_ACC * dt) • vel_diff.normalized
    else if Real.sqrt (error_lin.x ^ 2 + error_lin.y ^ 2) < 3 / 2 then
      (1 : ℝ) • vel_desired
    else
      vel_desired
  { linear := lin,
    angular := ⟨0, 0, determineReference error_ang last_cmd_vel.angular.z
                        MAX_VEL_THETA MAX_ACC_THETA dt⟩ }

/-- The `dt` computation of lines 82-87: `dt = time - t_last` when the
stored previous time is positive, else `dt` keeps its initialiser `0`. -/
noncomputable def computeDt (time t_last_cmd_vel : ℝ) : ℝ :=
  if t_last_cmd_vel > 0 then time - t_last_cmd_vel else 0

/-- Embedding of `CarrotPlanner::computeVelocityCommand` (lines 79-118)
after the `dt` computation: `clear` is the value of `isClearLine()`; on a
blocked path the goal vector is zeroed (the `setZeroVelocity` call on the
output parameter at line 93 is dead, as `determineDesiredVelocity`
overwrites every component it zeroes; the normalised-goal message of lines
101-111 is likewise never read).  The function always succeeds. -/
noncomputable def computeVelocityCommand
    (MAX_VEL MAX_ACC MAX_VEL_THETA MAX_ACC_THETA GAIN : ℝ)
    (clear : Bool) (goal : Vec3) (goal_angle : ℝ)
    (last_cmd_vel : Twist) (dt : ℝ) : Twist :=
  let goal2 := if clear then goal else (0 : Vec3)
  determineDesiredVelocity MAX_VEL MAX_ACC MAX_VEL_THETA MAX_ACC_THETA GAIN
    goal2 goal_angle last_cmd_vel dt

/-- Model of `geometry_msgs::PoseStamped` as `setGoal` consumes it: the
frame identifier, the position, and the orientation represented by the yaw
that the external call `tf::getYaw` extracts from it. -/
structure PoseStamped where
  frame_id : String
  position : Vec3
  yaw : ℝ

/-- The two-point line strip `publishCarrot` emits (lines 357-384): from
the origin (lifted to `z = 0.05`) to the goal's `x`/`y` projection. -/
structure Marker where
  p1 : Vec3
  p2 : Vec3

/-- Construction of the visualization marker of `publishCarrot`. -/
noncomputable def publishCarrot (carrot : Vec3) : Marker :=
  ⟨⟨0, 0, 1 / 20⟩, ⟨carrot.x, carrot.y, 1 / 20⟩⟩

/-- The mutable controller state `setGoal` and the tick touch: the stored
goal vector, the stored goal angle and the last emitted command. -/
structure PlannerState where
  goal : Vec3
  goal_angle : ℝ
  last_cmd_vel : Twist

/-- Embedding of `CarrotPlanner::setGoal` (lines 53-77): reject a pose
whose frame differs from the tracking frame leaving the state untouched and
publishing nothing; otherwise store the position and the (dead-banded) yaw
and publish one carrot marker. -/
noncomputable def setGoal (tracking_frame : String) (MIN_ANGLE : ℝ)
    (st : PlannerState) (p : PoseStamped) : Bool × PlannerState × List Marker :=
  if p.frame_id ≠ tracking_frame then (false, st, [])
  else
    let goal_angle := if |p.yaw| < MIN_ANGLE then 0 else p.yaw
    (true, { st with goal := p.position, goal_angle := goal_angle },
      [publishCarrot p.position])

/-- One control tick, the composition `MoveToGoal` performs (lines 32-51):
`setGoal` followed by `computeVelocityCommand`; `none` when the goal is
rejected (no command emitted).  `clear` stands for the `isClearLine()`
verdict on the most recent scan, and `dt` for the elapsed time `computeDt`
yields. -/
noncomputable def tick (MAX_VEL MAX_ACC MAX_VEL_THETA MAX_ACC_THETA GAIN MIN_ANGLE : ℝ)
    (tracking_frame : String) (clear : Bool)
    (st : PlannerState) (p : PoseStamped) (dt : ℝ) : Option (Twist × PlannerState) :=
  let r := setGoal tracking_frame MIN_ANGLE st p
  if r.1 then
    let st1 := r.2.1
    let goal2 := if clear then st1.goal else (0 : Vec3)
    let cmd := computeVelocityCommand MAX_VEL MAX_ACC MAX_VEL_THETA
      MAX_ACC_THETA GAIN clear st1.goal st1.goal_angle st1.last_cmd_vel dt
    some (cmd, { goal := goal2, goal_angle := st1.goal_angle, last_cmd_vel := cmd })
  else none

/-! Helper lemmas about the embedding. -/

theorem sgn_of_pos {α : Type} [LinearOrderedField α] {x : α} (h : 0 < x) :
    sgn x = 1 := by
  simp [sgn, h.le]

theorem sgn_of_neg {α : Type} [LinearOrderedField α] {x : α} (h : x < 0) :
    sgn x = -1 := by
  simp [sgn, not_le.mpr h]

theorem sgn_zero {α : Type} [LinearOrderedField α] : sgn (0 : α) = 1 := by
  simp [sgn]

theorem abs_sgn_le_one {α : Type} [LinearOrderedField α] (x : α) :
    |sgn x| ≤ 1 := by
  unfold sgn
  split_ifs <;> simp

theorem abs_sgn_mul_le {α : Type} [LinearOrderedField α] (x m b : α)
    (hm : 0 ≤ m) (hmb : m ≤ b) : |sgn x * m| ≤ b := by
  rw [abs_mul]
  calc |sgn x| * |m| ≤ 1 * |m| :=
        mul_le_mul_of_nonneg_right (abs_sgn_le_one x) (abs_nonneg m)
    _ = m := by rw [one_mul, abs_of_nonneg hm]
    _ ≤ b := hmb

theorem Vec3.eta {a b : Vec3} (hx : a.x = b.x) (hy : a.y = b.y)
    (hz : a.z = b.z) : a = b := by
  cases a; cases b; simp_all

theorem Vec3.zero_x : (0 : Vec3).x = 0 := rfl

theorem Vec3.zero_y : (0 : Vec3).y = 0 := rfl

theorem Vec3.zero_z : (0 : Vec3).z = 0 := rfl

theorem Vec3.add_x (a b : Vec3) : (a + b).x = a.x + b.x := rfl

theorem Vec3.add_y (a b : Vec3) : (a + b).y = a.y + b.y := rfl

theorem Vec3.add_z (a b : Vec3) : (a + b).z = a.z + b.z := rfl

theorem Vec3.sub_x (a b : Vec3) : (a - b).x = a.x - b.x := rfl

theorem Vec3.sub_y (a b : Vec3) : (a - b).y = a.y - b.y := rfl

theorem Vec3.sub_z (a b : Vec3) : (a - b).z = a.z - b.z := rfl

theorem Vec3.smul_x (k : ℝ) (v : Vec3) : (k • v).x = k * v.x := rfl

theorem Vec3.smul_y (k : ℝ) (v : Vec3) : (k • v).y = k * v.y := rfl

theorem Vec3.smul_z (k : ℝ) (v : Vec3) : (k • v).z = k * v.z := rfl

theorem Vec3.length_zero : (0 : Vec3).length = 0 := by
  simp [Vec3.length, Vec3.zero_x, Vec3.zero_y, Vec3.zero_z]

theorem Vec3.length_nonneg (v : Vec3) : 0 ≤ v.length :=
  Real.sqrt_nonneg _

theorem Vec3.length_smul (k : ℝ) (v : Vec3) :
    (k • v).length = |k| * v.length := by
  unfold Vec3.length
  rw [Vec3.smul_x, Vec3.smul_y, Vec3.smul_z]
  rw [show (k * v.x) ^ 2 + (k * v.y) ^ 2 + (k * v.z) ^ 2
        = k ^ 2 * (v.x ^ 2 + v.y ^ 2 + v.z ^ 2) by ring]
  rw [Real.sqrt_mul (sq_nonneg k), Real.sqrt_sq_eq_abs]

theorem Vec3.length_zero_sub (v : Vec3) :
    ((0 : Vec3) - v).length = v.length := by
  unfold Vec3.length
  rw [Vec3.sub_x, Vec3.sub_y, Vec3.sub_z, Vec3.zero_x, Vec3.zero_y, Vec3.zero_z]
  ring_nf

theorem Vec3.length_axis_x (a : ℝ) : (Vec3.mk a 0 0).length = |a| := by
  unfold Vec3.length
  rw [show (Vec3.mk a 0 0).x ^ 2 + (Vec3.mk a 0 0).y ^ 2 + (Vec3.mk a 0 0).z ^ 2
        = a ^ 2 by simp]
  exact Real.sqrt_sq_eq_abs a

theorem Vec3.length_axis_z (a : ℝ) : (Vec3.mk 0 0 a).length = |a| := by
  unfold Vec3.length
  rw [show (Vec3.mk 0 0 a).x ^ 2 + (Vec3.mk 0 0 a).y ^ 2 + (Vec3.mk 0 0 a).z ^ 2
        = a ^ 2 by simp]
  exact Real.sqrt_sq_eq_abs a

theorem gain_sqrt_ge_half : (1 / 2 : ℝ) ≤ 9 / 10 * Real.sqrt (2 * 2 * (3 / 20)) := by
  have h1 : (2 * 2 * (3 / 20) : ℝ) = 3 / 5 := by norm_num
  have h2 : (5 / 9 : ℝ) ≤ Real.sqrt (3 / 5) :=
    (Real.le_sqrt (by norm_num) (by norm_num)).2 (by norm_num)
  rw [h1]
  nlinarith [h2]

/-- C1.  The claim is false of the code and the specification's window is
the intent: the loop start is `std::min(index_beam_obst - d_step, 0)` where
the clamp to `[0, numReadings)` requires `std::max`.  First scenario (four
readings, goal window `[2, 4)` entirely clear, an obstacle-range reading at
index `0` far outside that window): the claimed window verdict is `true`
yet the code returns `false` because it scans from index `0`.  Second
scenario (`indexGoal - halfWidth = -2 < 0`): the claimed clamped window is
empty (verdict `true`) yet the code reads `ranges[-2]`, an out-of-bounds
access (`none`), so accesses do not stay within `[0, numReadings)`. -/
theorem isClearLine_window_bug :
    (specIsPathClear true ⟨[3 / 10, 2, 2, 2], 1, 0⟩ 1 1 (1 / 2) ∧
      isClearLine true ⟨[3 / 10, 2, 2, 2], 1, 0⟩ 1 1 (1 / 2) = some false) ∧
    (specIsPathClear true ⟨[2, 2], 1, 0⟩ (-2) 1 (1 / 2) ∧
      isClearLine true ⟨[2, 2], 1, 0⟩ (-2) 1 (1 / 2) = none) := by
  have e1 : indexBeamObst 4 1 1 = 3 := by
    norm_num [indexBeamObst, numIncr, truncQ]
  have e2 : dStep 1 1 = 1 := by
    norm_num [dStep, truncQ]
  have hc2 : ⌈((-2 : ℚ))⌉ = -2 := by
    rw [show ((-2 : ℚ)) = ((-2 : ℤ) : ℚ) by norm_num]
    exact Int.ceil_intCast _
  have e3 : indexBeamObst 2 (-2) 1 = -1 := by
    norm_num [indexBeamObst, numIncr, truncQ, hc2]
  refine ⟨⟨⟨rfl, ?_⟩, ?_⟩, ⟨⟨rfl, ?_⟩, ?_⟩⟩
  · intro j hlo hhi r hr
    simp only [show (LaserScan.mk [3 / 10, 2, 2, 2] 1 0).ranges.length = 4 from rfl,
      show (LaserScan.mk [3 / 10, 2, 2, 2] 1 0).angle_increment = 1 from rfl,
      e1, e2] at hlo hhi
    have hj : j = 2 ∨ j = 3 := by omega
    rcases hj with hj | hj <;> subst hj <;>
      simp only [readRange, show ((2:ℤ)).toNat = 2 from rfl,
        show ((3:ℤ)).toNat = 3 from rfl, if_pos (by norm_num : (0:ℤ) ≤ 2),
        if_pos (by norm_num : (0:ℤ) ≤ 3)] at hr <;>
      simp only [show ([3 / 10, 2, 2, 2] : List ℚ)[2]? = some 2 from rfl,
        show ([3 / 10, 2, 2, 2] : List ℚ)[3]? = some 2 from rfl,
        Option.some.injEq] at hr <;>
      rw [← hr] <;> norm_num
  · simp only [isClearLine, show (LaserScan.mk [3 / 10, 2, 2, 2] 1 0).ranges.length = 4
      from rfl, show (LaserScan.mk [3 / 10, 2, 2, 2] 1 0).angle_increment = 1 from rfl,
      show (LaserScan.mk [3 / 10, 2, 2, 2] 1 0).ranges = [3 / 10, 2, 2, 2] from rfl,
      e1, e2]
    norm_num [clearLineLoop, readRange]
  · intro j hlo hhi r hr
    simp only [show (LaserScan.mk [2, 2] 1 0).ranges.length = 2 from rfl,
      show (LaserScan.mk [2, 2] 1 0).angle_increment = 1 from rfl, e3] at hlo hhi
    omega
  · simp only [isClearLine, show (LaserScan.mk [2, 2] 1 0).ranges.length = 2 from rfl,
      show (LaserScan.mk [2, 2] 1 0).angle_increment = 1 from rfl,
      show (LaserScan.mk [2, 2] 1 0).ranges = [2, 2] from rfl, e3, e2]
    norm_num [clearLineLoop, readRange]

/-- C8 counterexample: with `goalAngle/angleIncrement = 8/5` the claimed
rounding gives `indexGoal = 10/2 + round(8/5) = 7` and `halfWidth = 2`, but
the code's C++ `int` conversions truncate, giving `6` and `1`. -/
theorem indexConversion_cex :
    indexBeamObst 10 (8 / 5) 1 = 6 ∧
    ((10 : ℕ) / 2 : ℤ) + round ((8 : ℚ) / 5 / 1) = 7 ∧
    dStep (8 / 5) 1 = 1 ∧
    round ((8 : ℚ) / 5 / 1) = 2 := by
  have hr : round ((8 : ℚ) / 5 / 1) = 2 := by
    norm_num [round_eq]
  refine ⟨?_, by rw [hr]; decide, ?_, hr⟩
  · norm_num [indexBeamObst, numIncr, truncQ]
  · norm_num [dStep, truncQ]

/-- C8 (amended): both real-to-index conversions truncate toward zero (the
C++ `double → int` conversion), not round to nearest: the integer offset
`t` added to `numReadings/2` (and likewise the half-width) satisfies
`|t| ≤ |ratio| < |t| + 1` and carries the ratio's sign. -/
theorem indexConversion_truncates (n : ℕ) (ga inc dth : ℚ) :
    indexBeamObst n ga inc = (n / 2 : ℕ) + truncQ (ga / inc) ∧
    dStep dth inc = truncQ (dth / inc) ∧
    ∀ q : ℚ, |(truncQ q : ℚ)| ≤ |q| ∧ |q| < |(truncQ q : ℚ)| + 1 ∧
      (0 ≤ q → 0 ≤ truncQ q) ∧ (q ≤ 0 → truncQ q ≤ 0) := by
  refine ⟨rfl, rfl, fun q => ?_⟩
  unfold truncQ
  split_ifs with h
  · have h0 : (0 : ℤ) ≤ ⌊q⌋ := Int.floor_nonneg.2 h
    have hc : (0 : ℚ) ≤ (⌊q⌋ : ℚ) := by exact_mod_cast h0
    rw [abs_of_nonneg hc, abs_of_nonneg h]
    refine ⟨Int.floor_le q, Int.lt_floor_add_one q, fun _ => h0, fun hq => ?_⟩
    have : q = 0 := le_antisymm hq h
    simp [this]
  · have hq : q < 0 := lt_of_not_le h
    have h0 : ⌈q⌉ ≤ 0 := Int.ceil_le.2 (by exact_mod_cast hq.le)
    have hc : ((⌈q⌉ : ℚ)) ≤ 0 := by exact_mod_cast h0
    rw [abs_of_nonpos hc, abs_of_nonpos hq.le]
    refine ⟨by linarith [Int.le_ceil q], ?_, fun hq2 => absurd hq2 h, fun _ => h0⟩
    have := Int.ceil_lt_add_one q
    push_cast at this ⊢
    linarith

theorem abs_sgn_one {α : Type} [LinearOrderedField α] (x : α) :
    |sgn x| = 1 := by
  unfold sgn
  split_ifs <;> simp

/-- C2 counterexample: at `error = -1`, `previousVelocity = 1`,
`maxVel = 2`, `maxAcc = dt = 1/10` (all bounds positive and the previous
velocity within `maxVel`), the generator overshoot-decelerates to magnitude
`99/100` but flips the sign to the error's, returning `-99/100`: the output
differs from the previous velocity by `199/100`, far more than
`maxAcc·dt = 1/100`. -/
theorem stepChange_cex :
    determineReference ((-1 : ℚ)) 1 2 (1 / 10) (1 / 10) = -(99 / 100) ∧
    ¬(|determineReference ((-1 : ℚ)) 1 2 (1 / 10) (1 / 10) - 1| ≤ 1 / 10 * (1 / 10)) ∧
    |(1 : ℚ)| ≤ 2 := by
  have h : determineReference ((-1 : ℚ)) 1 2 (1 / 10) (1 / 10) = -(99 / 100) := by
    norm_num [determineReference, sgn]
  refine ⟨h, ?_, by norm_num⟩
  rw [h]; norm_num [abs_le]

/-- C2 (amended): with `maxVel, maxAcc, dt > 0` and a previous velocity
within the velocity bound, the returned velocity's magnitude never exceeds
`maxVel` and never exceeds `|previousVelocity| + maxAcc·dt` (it can
increase by at most `maxAcc·dt`); the decrease per call is unbounded — the
signed output can jump by up to `|previousVelocity| + maxVel`, because the
output carries `sign(error)`, not the previous velocity's sign. -/
theorem stepBounded {α : Type} [LinearOrderedField α]
    (e v mv ma dt : α) (hmv : 0 < mv) (hma : 0 < ma) (hdt : 0 < dt)
    (hv : |v| ≤ mv) :
    |determineReference e v mv ma dt| ≤ mv ∧
    |determineReference e v mv ma dt| ≤ |v| + ma * dt := by
  have hmadt : 0 < ma * dt := mul_pos hma hdt
  have habs : 0 ≤ |v| := abs_nonneg v
  simp only [determineReference]
  split_ifs with h1 h2 h3 h4
  · constructor
    · exact abs_sgn_mul_le e 0 mv le_rfl hmv.le
    · exact abs_sgn_mul_le e 0 _ le_rfl (by linarith)
  · constructor
    · exact abs_sgn_mul_le e _ mv (le_max_right _ _) (max_le (by linarith) hmv.le)
    · exact abs_sgn_mul_le e _ _ (le_max_right _ _) (max_le (by linarith) (by linarith))
  · constructor
    · exact abs_sgn_mul_le e _ mv habs hv
    · exact abs_sgn_mul_le e _ _ habs (by linarith)
  · constructor
    · exact abs_sgn_mul_le e _ mv (le_min (by linarith) hmv.le) (min_le_right _ _)
    · exact abs_sgn_mul_le e _ _ (le_min (by linarith) hmv.le) (min_le_left _ _)
  · have h0 : |v| = 0 := not_ne_iff.mp (not_or.mp h1).1
    rw [h0, mul_zero, abs_zero]
    exact ⟨hmv.le, by linarith⟩

/-- C2 witness: the amended bound instantiated at
`error = 1, previousVelocity = 0, maxVel = maxAcc = dt = 1` over `ℚ`. -/
theorem stepBounded_wit :
    |determineReference (1 : ℚ) 0 1 1 1| ≤ 1 ∧
    |determineReference (1 : ℚ) 0 1 1 1| ≤ |(0 : ℚ)| + 1 * 1 :=
  stepBounded 1 0 1 1 1 one_pos one_pos one_pos (by norm_num)

/-- C7: for every error `e` and previous velocity `v` with `v ≠ 0` and
`sign(v) ≠ sign(e)`, and every `maxAcc > 0` and `dt > 0`, the generator
takes the decelerate branch regardless of how the deceleration distance
compares to `|e|` (via the overshoot test when the signs are opposite and
nonzero, via `decDist ≥ |e| = 0` when the error is zero): the output is
`sign(e)` times `|v| - maxAcc·dt`, its magnitude is `|v| - maxAcc·dt` or
exactly `0` when that falls below `0.5·maxAcc·dt`, and in either case
strictly smaller than `|v|`. -/
theorem stepOvershoot {α : Type} [LinearOrderedField α]
    (e v mv ma dt : α) (hv0 : v ≠ 0) (hsv : sgn v ≠ sgn e)
    (hma : 0 < ma) (hdt : 0 < dt) :
    determineReference e v mv ma dt =
      sgn e * (if |v| - ma * dt < 1 / 2 * ma * dt then 0 else |v| - ma * dt) ∧
    |determineReference e v mv ma dt| =
      (if |v| - ma * dt < 1 / 2 * ma * dt then 0 else |v| - ma * dt) ∧
    |determineReference e v mv ma dt| < |v| := by
  have hvabs : |v| ≠ 0 := abs_ne_zero.mpr hv0
  have hvpos : 0 < |v| := abs_pos.mpr hv0
  have hmadt : 0 < ma * dt := mul_pos hma hdt
  have hdec : sgn v * e < 0 ∨ e = 0 := by
    rcases eq_or_ne e 0 with he | he
    · exact Or.inr he
    · left
      rcases lt_or_gt_of_ne hv0 with hneg | hpos
      · rw [sgn_of_neg hneg] at hsv ⊢
        rcases lt_or_gt_of_ne he with heneg | hepos
        · exact absurd (sgn_of_neg heneg).symm hsv
        · linarith
      · rw [sgn_of_pos hpos] at hsv ⊢
        rcases lt_or_gt_of_ne he with heneg | hepos
        · linarith
        · exact absurd (sgn_of_pos hepos).symm hsv
  have hsnap : (if max (|v| - ma * dt) 0 < 1 / 2 * ma * dt then (0 : α)
        else max (|v| - ma * dt) 0)
      = (if |v| - ma * dt < 1 / 2 * ma * dt then 0 else |v| - ma * dt) := by
    rcases le_or_lt (|v| - ma * dt) 0 with hle | hpos2
    · have ha : (0 : α) < 1 / 2 * ma * dt := by linarith
      have hb : |v| - ma * dt < 1 / 2 * ma * dt := by linarith
      rw [max_eq_right hle, if_pos ha, if_pos hb]
    · rw [max_eq_left hpos2.le]
  have hmain : determineReference e v mv ma dt =
      sgn e * (if |v| - ma * dt < 1 / 2 * ma * dt then 0 else |v| - ma * dt) := by
    simp only [determineReference]
    rw [if_pos (Or.inl hvabs)]
    rcases hdec with hd | he
    · rw [if_pos (Or.inr ⟨hd, hvabs⟩), hsnap]
    · subst he
      have hdec1 : |1 / 2 * ma * (|v| / ma) * (|v| / ma)| ≥ |(|(0 : α)|)| := by
        simp
      rw [if_pos (Or.inl hdec1), hsnap]
  have hmag : |determineReference e v mv ma dt| =
      (if |v| - ma * dt < 1 / 2 * ma * dt then 0 else |v| - ma * dt) := by
    rw [hmain, abs_mul, abs_sgn_one, one_mul]
    split_ifs with hcase
    · exact abs_zero
    · exact abs_of_nonneg (by linarith [not_lt.mp hcase])
  refine ⟨hmain, hmag, ?_⟩
  rw [hmag]
  split_ifs with hcase
  · exact hvpos
  · linarith

/-- C7 witness: the claim instantiated at `error = -1`,
`previousVelocity = 1`, `maxVel = maxAcc = dt = 1` over `ℚ`. -/
theorem stepOvershoot_wit :
    determineReference ((-1 : ℚ)) 1 1 1 1 =
      sgn ((-1 : ℚ)) * (if |(1 : ℚ)| - 1 * 1 < 1 / 2 * 1 * 1 then 0
        else |(1 : ℚ)| - 1 * 1) ∧
    |determineReference ((-1 : ℚ)) 1 1 1 1| =
      (if |(1 : ℚ)| - 1 * 1 < 1 / 2 * 1 * 1 then 0 else |(1 : ℚ)| - 1 * 1) ∧
    |determineReference ((-1 : ℚ)) 1 1 1 1| < |(1 : ℚ)| :=
  stepOvershoot (-1) 1 1 1 1 (by norm_num) (by norm_num [sgn]) one_pos one_pos

/-- C9: a pose whose frame identifier differs from the tracking frame is
rejected by `setGoal`: it returns `false`, mutates nothing (the returned
state is the old state) and publishes no visualization marker. -/
theorem setGoal_rejects_frame_mismatch (frame : String) (m : ℝ)
    (st : PlannerState) (p : PoseStamped) (h : p.frame_id ≠ frame) :
    setGoal frame m st p = (false, st, []) := by
  simp [setGoal, h]

/-- C9 witness: a concrete pose in frame `/map` against tracking frame
`/base_link` is rejected with the state unchanged and nothing published. -/
theorem setGoal_rejects_frame_mismatch_wit :
    setGoal "/base_link" 1 ⟨⟨1, 2, 3⟩, 4, ⟨⟨0, 0, 0⟩, ⟨0, 0, 0⟩⟩⟩
        ⟨"/map", ⟨5, 6, 7⟩, 8⟩
      = (false, ⟨⟨1, 2, 3⟩, 4, ⟨⟨0, 0, 0⟩, ⟨0, 0, 0⟩⟩⟩, []) :=
  setGoal_rejects_frame_mismatch "/base_link" 1 _ _ (by decide)

/-- C10: a pose in the expected frame is accepted; the stored goal equals
the pose's position exactly, the stored angle is the extracted yaw with the
dead-band (`0` whenever `|yaw| < MIN_ANGLE`), the rest of the state is
untouched, and one carrot marker is published. -/
theorem setGoal_roundtrip (frame : String) (m : ℝ) (st : PlannerState)
    (p : PoseStamped) (h : p.frame_id = frame) :
    (setGoal frame m st p).1 = true ∧
    (setGoal frame m st p).2.1.goal = p.position ∧
    (|p.yaw| < m → (setGoal frame m st p).2.1.goal_angle = 0) ∧
    (¬|p.yaw| < m → (setGoal frame m st p).2.1.goal_angle = p.yaw) ∧
    (setGoal frame m st p).2.1.last_cmd_vel = st.last_cmd_vel ∧
    (setGoal frame m st p).2.2 = [publishCarrot p.position] := by
  unfold setGoal
  rw [if_neg (by simp [h])]
  refine ⟨rfl, rfl, fun hd => ?_, fun hd => ?_, rfl, rfl⟩
  · simp [hd]
  · simp [hd]

/-- C10 witness: a pose in `/base_link` with yaw `1/2` below the dead-band
`1` is accepted, stores position `(1,2,3)` and angle `0`. -/
theorem setGoal_roundtrip_wit :
    (setGoal "/base_link" 1 ⟨⟨0, 0, 0⟩, 0, ⟨⟨0, 0, 0⟩, ⟨0, 0, 0⟩⟩⟩
        ⟨"/base_link", ⟨1, 2, 3⟩, 1 / 2⟩).1 = true ∧
    (setGoal "/base_link" 1 ⟨⟨0, 0, 0⟩, 0, ⟨⟨0, 0, 0⟩, ⟨0, 0, 0⟩⟩⟩
        ⟨"/base_link", ⟨1, 2, 3⟩, 1 / 2⟩).2.1.goal = ⟨1, 2, 3⟩ ∧
    (|(1 / 2 : ℝ)| < 1 →
      (setGoal "/base_link" 1 ⟨⟨0, 0, 0⟩, 0, ⟨⟨0, 0, 0⟩, ⟨0, 0, 0⟩⟩⟩
        ⟨"/base_link", ⟨1, 2, 3⟩, 1 / 2⟩).2.1.goal_angle = 0) ∧
    (¬|(1 / 2 : ℝ)| < 1 →
      (setGoal "/base_link" 1 ⟨⟨0, 0, 0⟩, 0, ⟨⟨0, 0, 0⟩, ⟨0, 0, 0⟩⟩⟩
        ⟨"/base_link", ⟨1, 2, 3⟩, 1 / 2⟩).2.1.goal_angle = 1 / 2) ∧
    (setGoal "/base_link" 1 ⟨⟨0, 0, 0⟩, 0, ⟨⟨0, 0, 0⟩, ⟨0, 0, 0⟩⟩⟩
        ⟨"/base_link", ⟨1, 2, 3⟩, 1 / 2⟩).2.1.last_cmd_vel = ⟨⟨0, 0, 0⟩, ⟨0, 0, 0⟩⟩ ∧
    (setGoal "/base_link" 1 ⟨⟨0, 0, 0⟩, 0, ⟨⟨0, 0, 0⟩, ⟨0, 0, 0⟩⟩⟩
        ⟨"/base_link", ⟨1, 2, 3⟩, 1 / 2⟩).2.2 = [publishCarrot ⟨1, 2, 3⟩] :=
  setGoal_roundtrip "/base_link" 1 _ _ rfl

/-- C4 (amended): the two non-vertical rotational components of every
command are `0`, and the translational `z` component is `0` whenever the
goal's `z` and the previous command's translational `z` are `0`; a nonzero
goal `z` propagates into the command (see the counterexample), because
`setGoal` copies the pose's `z` into the goal vector and
`determineDesiredVelocity` never projects it away. -/
theorem command_components (mv ma mvt mat g : ℝ) (goal : Vec3) (θ : ℝ)
    (last : Twist) (dt : ℝ) (hz : goal.z = 0) (hlz : last.linear.z = 0) :
    (determineDesiredVelocity mv ma mvt mat g goal θ last dt).angular.x = 0 ∧
    (determineDesiredVelocity mv ma mvt mat g goal θ last dt).angular.y = 0 ∧
    (determineDesiredVelocity mv ma mvt mat g goal θ last dt).linear.z = 0 := by
  refine ⟨rfl, rfl, ?_⟩
  simp only [determineDesiredVelocity]
  split_ifs with h1 h2 <;>
    simp [Vec3.add_z, Vec3.sub_z, Vec3.smul_z, Vec3.zero_z, Vec3.normalized,
      hz, hlz]

/-- C4 witness: the amended component invariant at a concrete planar goal
`(3,4,0)` with zero previous command. -/
theorem command_components_wit :
    (determineDesiredVelocity 1 1 1 1 1 ⟨3, 4, 0⟩ 0
        ⟨⟨0, 0, 0⟩, ⟨0, 0, 0⟩⟩ 1).angular.x = 0 ∧
    (determineDesiredVelocity 1 1 1 1 1 ⟨3, 4, 0⟩ 0
        ⟨⟨0, 0, 0⟩, ⟨0, 0, 0⟩⟩ 1).angular.y = 0 ∧
    (determineDesiredVelocity 1 1 1 1 1 ⟨3, 4, 0⟩ 0
        ⟨⟨0, 0, 0⟩, ⟨0, 0, 0⟩⟩ 1).linear.z = 0 :=
  command_components 1 1 1 1 1 ⟨3, 4, 0⟩ 0 ⟨⟨0, 0, 0⟩, ⟨0, 0, 0⟩⟩ 1 rfl rfl

/-- C3: on a blocked path (`isClearLine` false) with a previous
translational command of magnitude above `maxAccTrans·dt` and `dt > 0`, the
emitted translational command is not zero: the blocked branch only zeroes
the goal vector, the desired velocity becomes `0`, and the acceleration
clamp moves the previous command toward zero by exactly `maxAccTrans·dt`,
leaving a nonzero command of magnitude `‖previous‖ - maxAccTrans·dt`. -/
theorem blocked_decel (mv ma mvt mat g : ℝ) (goal : Vec3) (θ : ℝ)
    (last : Twist) (dt : ℝ) (hdt : 0 < dt) (hma : 0 < ma)
    (h : ma * dt < last.linear.length) :
    (computeVelocityCommand mv ma mvt mat g false goal θ last dt).linear
        = (1 - ma * dt / last.linear.length) • last.linear ∧
    ((computeVelocityCommand mv ma mvt mat g false goal θ last dt).linear).length
        = last.linear.length - ma * dt ∧
    (computeVelocityCommand mv ma mvt mat g false goal θ last dt).linear ≠ 0 := by
  have hmadt : 0 < ma * dt := mul_pos hma hdt
  have hL : 0 < last.linear.length := hmadt.trans h
  have hLne : last.linear.length ≠ 0 := ne_of_gt hL
  have hvz : vDesiredNorm mv g ma (0 : Vec3).length = 0 := by
    simp [vDesiredNorm, Vec3.length_zero]
  have hdiffeq : (vDesiredNorm mv g ma (0 : Vec3).length •
      (if (0 : Vec3).length > 0 then (0 : Vec3).normalized else (0 : Vec3))
        - last.linear) = (0 : Vec3) - last.linear := by
    rw [hvz]
    apply Vec3.eta <;>
      simp [Vec3.smul_x, Vec3.smul_y, Vec3.smul_z, Vec3.sub_x, Vec3.sub_y, Vec3.sub_z,
        Vec3.zero_x, Vec3.zero_y, Vec3.zero_z, Vec3.length_zero, lt_irrefl]
  have hmain : (computeVelocityCommand mv ma mvt mat g false goal θ last dt).linear
      = (1 - ma * dt / last.linear.length) • last.linear := by
    simp only [computeVelocityCommand, Bool.false_eq_true, if_false]
    simp only [determineDesiredVelocity, hdiffeq, Vec3.length_zero_sub]
    rw [if_pos (show last.linear.length / dt > ma from (lt_div_iff₀ hdt).2 (by linarith))]
    apply Vec3.eta <;>
      simp only [Vec3.add_x, Vec3.add_y, Vec3.add_z, Vec3.smul_x, Vec3.smul_y,
        Vec3.smul_z, Vec3.sub_x, Vec3.sub_y, Vec3.sub_z, Vec3.zero_x, Vec3.zero_y,
        Vec3.zero_z, Vec3.normalized, Vec3.length_zero_sub] <;>
      field_simp <;> ring
  have hlen2 : ((1 - ma * dt / last.linear.length) • last.linear).length
      = last.linear.length - ma * dt := by
    rw [Vec3.length_smul]
    have h1 : ma * dt / last.linear.length < 1 := (div_lt_one hL).2 h
    rw [abs_of_nonneg (by linarith)]
    field_simp
  refine ⟨hmain, by rw [hmain, hlen2], ?_⟩
  rw [hmain]
  intro hzeq
  rw [hzeq, Vec3.length_zero] at hlen2
  linarith

/-- C3 witness: with previous command `(1,0,0)`, `maxAccTrans = 1/10`,
`dt = 1` and a blocked path, the emitted translational command is
`(9/10, 0, 0)`: shrunk by exactly `maxAccTrans·dt`, not zero. -/
theorem blocked_decel_wit :
    (computeVelocityCommand 1 (1 / 10) 1 1 1 false ⟨5, 5, 5⟩ 0
        ⟨⟨1, 0, 0⟩, ⟨0, 0, 0⟩⟩ 1).linear
      = (1 - 1 / 10 * 1 / (Vec3.mk 1 0 0).length) • Vec3.mk 1 0 0 ∧
    ((computeVelocityCommand 1 (1 / 10) 1 1 1 false ⟨5, 5, 5⟩ 0
        ⟨⟨1, 0, 0⟩, ⟨0, 0, 0⟩⟩ 1).linear).length
      = (Vec3.mk 1 0 0).length - 1 / 10 * 1 ∧
    (computeVelocityCommand 1 (1 / 10) 1 1 1 false ⟨5, 5, 5⟩ 0
        ⟨⟨1, 0, 0⟩, ⟨0, 0, 0⟩⟩ 1).linear ≠ 0 :=
  blocked_decel 1 (1 / 10) 1 1 1 ⟨5, 5, 5⟩ 0 ⟨⟨1, 0, 0⟩, ⟨0, 0, 0⟩⟩ 1 one_pos
    (by norm_num)
    (by rw [show (Twist.mk (Vec3.mk 1 0 0) (Vec3.mk 0 0 0)).linear = Vec3.mk 1 0 0
          from rfl, Vec3.length_axis_x]; norm_num)

/-- C6: the desired translational speed is `0` at zero error and
`min(maxVelTrans, gain·sqrt(2·e·maxAccTrans))` at error magnitude `e > 0`;
in the concrete scenario (`maxAccTrans = 0.15`, `maxVelTrans = 0.5`,
`gain = 0.9`, goal `(2,0,0)`, clear path, `dt = 0.1`, zero previous
command) the desired speed is `0.5` and the acceleration clamp emits the
command `(0.015, 0, 0)` along the goal direction. -/
theorem braking_curve_scenario :
    (∀ mv g ma e : ℝ, 0 < e →
      vDesiredNorm mv g ma e = min mv (g * Real.sqrt (2 * e * ma))) ∧
    (∀ mv g ma : ℝ, vDesiredNorm mv g ma 0 = 0) ∧
    vDesiredNorm (1 / 2) (9 / 10) (3 / 20) 2 = 1 / 2 ∧
    (determineDesiredVelocity (1 / 2) (3 / 20) (3 / 10) (1 / 4) (9 / 10)
        ⟨2, 0, 0⟩ 0 ⟨⟨0, 0, 0⟩, ⟨0, 0, 0⟩⟩ (1 / 10)).linear = ⟨3 / 200, 0, 0⟩ := by
  have hlen : (Vec3.mk 2 0 0).length = 2 := by
    rw [Vec3.length_axis_x]; norm_num
  have hv : vDesiredNorm (1 / 2) (9 / 10) (3 / 20) 2 = 1 / 2 := by
    unfold vDesiredNorm
    rw [if_pos (show (2 : ℝ) > 0 by norm_num)]
    exact min_eq_left gain_sqrt_ge_half
  have hnorm : (Vec3.mk 2 0 0).normalized = Vec3.mk 1 0 0 := by
    unfold Vec3.normalized
    rw [hlen]
    apply Vec3.eta <;> norm_num
  have hscen : (determineDesiredVelocity (1 / 2) (3 / 20) (3 / 10) (1 / 4) (9 / 10)
      ⟨2, 0, 0⟩ 0 ⟨⟨0, 0, 0⟩, ⟨0, 0, 0⟩⟩ (1 / 10)).linear = ⟨3 / 200, 0, 0⟩ := by
    simp only [determineDesiredVelocity, hlen, hnorm, hv]
    rw [if_pos (show (2 : ℝ) > 0 by norm_num)]
    have hd : ((1 / 2 : ℝ) • Vec3.mk 1 0 0 - Vec3.mk 0 0 0) = Vec3.mk (1 / 2) 0 0 := by
      apply Vec3.eta <;>
        simp [Vec3.smul_x, Vec3.smul_y, Vec3.smul_z, Vec3.sub_x, Vec3.sub_y, Vec3.sub_z]
    rw [hd]
    have hdlen : (Vec3.mk (1 / 2 : ℝ) 0 0).length = 1 / 2 := by
      rw [Vec3.length_axis_x]; norm_num
    rw [hdlen]
    rw [if_pos (show (1 / 2 : ℝ) / (1 / 10) > 3 / 20 by norm_num)]
    have hnorm2 : (Vec3.mk (1 / 2 : ℝ) 0 0).normalized = Vec3.mk 1 0 0 := by
      unfold Vec3.normalized
      rw [hdlen]
      apply Vec3.eta <;> norm_num
    rw [hnorm2]
    apply Vec3.eta <;>
      simp [Vec3.add_x, Vec3.add_y, Vec3.add_z, Vec3.smul_x, Vec3.smul_y, Vec3.smul_z] <;>
      norm_num
  exact ⟨fun mv g ma e he => by simp [vDesiredNorm, he],
    fun mv g ma => by simp [vDesiredNorm], hv, hscen⟩

/-- C5: the code has no `dt ≤ 0` guard.  `computeDt` yields `dt = 0` when
the stored time is not positive, and `determineDesiredVelocity` then still
computes `acc_desired = ‖vel_diff‖/dt` (division by zero; under the model's
total-division convention the clamp test `acc_desired > MAX_ACC` is false)
and emits the unclamped desired velocity `(1/2, 0, 0)` instead of holding
the previous command `(1/10, 0, 0)` — a jump violating the acceleration
bound in zero elapsed time. -/
theorem unguarded_dt_division :
    computeDt 5 0 = 0 ∧
    (determineDesiredVelocity (1 / 2) (3 / 20) (3 / 10) (1 / 4) (9 / 10)
        ⟨2, 0, 0⟩ 0 ⟨⟨1 / 10, 0, 0⟩, ⟨0, 0, 0⟩⟩ 0).linear = ⟨1 / 2, 0, 0⟩ ∧
    Vec3.mk (1 / 2 : ℝ) 0 0 ≠ Vec3.mk (1 / 10 : ℝ) 0 0 ∧
    ¬(|(1 / 2 : ℝ) - 1 / 10| ≤ 3 / 20 * 0) := by
  have hlen : (Vec3.mk 2 0 0).length = 2 := by
    rw [Vec3.length_axis_x]; norm_num
  have hv : vDesiredNorm (1 / 2) (9 / 10) (3 / 20) 2 = 1 / 2 := by
    unfold vDesiredNorm
    rw [if_pos (show (2 : ℝ) > 0 by norm_num)]
    exact min_eq_left gain_sqrt_ge_half
  have hnorm : (Vec3.mk 2 0 0).normalized = Vec3.mk 1 0 0 := by
    unfold Vec3.normalized
    rw [hlen]
    apply Vec3.eta <;> norm_num
  have hne : Vec3.mk (1 / 2 : ℝ) 0 0 ≠ Vec3.mk (1 / 10 : ℝ) 0 0 := by
    intro hcon
    have hx := congrArg Vec3.x hcon
    norm_num at hx
  have habs : ¬(|(1 / 2 : ℝ) - 1 / 10| ≤ 3 / 20 * 0) := by
    rw [abs_of_nonneg (by norm_num : (0 : ℝ) ≤ 1 / 2 - 1 / 10)]
    norm_num
  refine ⟨by norm_num [computeDt], ?_, hne, habs⟩
  simp only [determineDesiredVelocity, hlen, hnorm, hv]
  rw [if_pos (show (2 : ℝ) > 0 by norm_num)]
  have hd : ((1 / 2 : ℝ) • Vec3.mk 1 0 0 - Vec3.mk (1 / 10) 0 0)
      = Vec3.mk (2 / 5) 0 0 := by
    apply Vec3.eta <;>
      simp [Vec3.smul_x, Vec3.smul_y, Vec3.smul_z, Vec3.sub_x, Vec3.sub_y, Vec3.sub_z] <;>
      norm_num
  rw [hd]
  have hdlen : (Vec3.mk (2 / 5 : ℝ) 0 0).length = 2 / 5 := by
    rw [Vec3.length_axis_x]; norm_num
  rw [hdlen]
  rw [if_neg (show ¬((2 / 5 : ℝ) / 0 > 3 / 20) by norm_num [div_zero])]
  have hs4 : Real.sqrt ((2 : ℝ) ^ 2 + 0 ^ 2) = 2 := by
    rw [show ((2 : ℝ) ^ 2 + 0 ^ 2) = 2 ^ 2 by norm_num,
      Real.sqrt_sq (by norm_num : (0 : ℝ) ≤ 2)]
  rw [hs4]
  rw [if_neg (show ¬((2 : ℝ) < 3 / 2) by norm_num)]
  apply Vec3.eta <;>
    simp [Vec3.smul_x, Vec3.smul_y, Vec3.smul_z]

/-- C4 counterexample: a successful tick on the accepted goal `(0,0,2)`
(frame matches, clear path, `dt = 1`, zero previous command) emits a
command whose translational `z` component is `3/20 ≠ 0`: the goal's `z` is
copied into the command, contradicting the claim that only `x`/`y`
translational components are ever nonzero for every input goal pose. -/
theorem tick_nonzero_z_cex :
    (tick (1 / 2) (3 / 20) (3 / 10) (1 / 4) (9 / 10) (1 / 10) "/base_link" true
        ⟨⟨0, 0, 0⟩, 0, ⟨⟨0, 0, 0⟩, ⟨0, 0, 0⟩⟩⟩ ⟨"/base_link", ⟨0, 0, 2⟩, 0⟩ 1).map
      (fun pr => pr.1.linear.z) = some (3 / 20) ∧ (3 / 20 : ℝ) ≠ 0 := by
  have hsg : setGoal "/base_link" (1 / 10) ⟨⟨0, 0, 0⟩, 0, ⟨⟨0, 0, 0⟩, ⟨0, 0, 0⟩⟩⟩
      ⟨"/base_link", ⟨0, 0, 2⟩, 0⟩
      = (true, ⟨⟨0, 0, 2⟩, 0, ⟨⟨0, 0, 0⟩, ⟨0, 0, 0⟩⟩⟩, [publishCarrot ⟨0, 0, 2⟩]) := by
    unfold setGoal
    rw [if_neg (by simp)]
    simp [ite_self]
  have hlenz : (Vec3.mk 0 0 2).length = 2 := by
    rw [Vec3.length_axis_z]; norm_num
  have hv : vDesiredNorm (1 / 2) (9 / 10) (3 / 20) 2 = 1 / 2 := by
    unfold vDesiredNorm
    rw [if_pos (show (2 : ℝ) > 0 by norm_num)]
    exact min_eq_left gain_sqrt_ge_half
  have hnormz : (Vec3.mk 0 0 2).normalized = Vec3.mk 0 0 1 := by
    unfold Vec3.normalized
    rw [hlenz]
    apply Vec3.eta <;> norm_num
  have hcmdz : (determineDesiredVelocity (1 / 2) (3 / 20) (3 / 10) (1 / 4) (9 / 10)
      ⟨0, 0, 2⟩ 0 ⟨⟨0, 0, 0⟩, ⟨0, 0, 0⟩⟩ 1).linear.z = 3 / 20 := by
    simp only [determineDesiredVelocity, hlenz, hnormz, hv]
    rw [if_pos (show (2 : ℝ) > 0 by norm_num)]
    have hd : ((1 / 2 : ℝ) • Vec3.mk 0 0 1 - Vec3.mk 0 0 0) = Vec3.mk 0 0 (1 / 2) := by
      apply Vec3.eta <;>
        simp [Vec3.smul_x, Vec3.smul_y, Vec3.smul_z, Vec3.sub_x, Vec3.sub_y, Vec3.sub_z]
    rw [hd]
    have hdlenz : (Vec3.mk 0 0 (1 / 2 : ℝ)).length = 1 / 2 := by
      rw [Vec3.length_axis_z]; norm_num
    rw [hdlenz]
    rw [if_pos (show (1 / 2 : ℝ) / 1 > 3 / 20 by norm_num)]
    have hnormz2 : (Vec3.mk 0 0 (1 / 2 : ℝ)).normalized = Vec3.mk 0 0 1 := by
      unfold Vec3.normalized
      rw [hdlenz]
      apply Vec3.eta <;> norm_num
    rw [hnormz2]
    simp [Vec3.add_z, Vec3.smul_z]
  have hplumb : (tick (1 / 2) (3 / 20) (3 / 10) (1 / 4) (9 / 10) (1 / 10) "/base_link"
      true ⟨⟨0, 0, 0⟩, 0, ⟨⟨0, 0, 0⟩, ⟨0, 0, 0⟩⟩⟩ ⟨"/base_link", ⟨0, 0, 2⟩, 0⟩ 1).map
        (fun pr => pr.1.linear.z)
      = some ((determineDesiredVelocity (1 / 2) (3 / 20) (3 / 10) (1 / 4) (9 / 10)
          ⟨0, 0, 2⟩ 0 ⟨⟨0, 0, 0⟩, ⟨0, 0, 0⟩⟩ 1).linear.z) := by
    unfold tick
    rw [hsg]
    simp [computeVelocityCommand]
  rw [hplumb, hcmdz]
  exact ⟨rfl, by norm_num⟩
